import Mathlib

/-!
DemoStats — verification of the activity-tracker core.

Shallow embedding of the Discord activity-statistics bot (`src/index.js`):
the three SQLite tables (`guild_users`, `messages`, `voice_sessions`), the
prepared statements, the message-ingestion path (`logMessageToDB`), the
voice-session tracker (`onVoiceUpdate`) and the stats query
(`buildStatsEmbed`), together with a transcription of the X/Twitter link
regex `X_LINK_REGEX` and its JavaScript `String.prototype.match` counting
semantics.

Timestamps (`nowTs()` in the source) are passed in as an explicit field of
each event, since `Date.now()` is an external input.  SQL `NULL` becomes
`Option`.  `AUTOINCREMENT` row ids become an explicit `next_voice_id`
counter on the database state.
-/

namespace DemoStats

/-- A row of the `guild_users` table (`first_seen`/`last_seen` presence). -/
structure UserRow where
  guild_id : String
  user_id : String
  first_seen : Int
  last_seen : Int
deriving Repr, DecidableEq

/-- A row of the `messages` table. -/
structure MessageRow where
  guild_id : String
  channel_id : String
  user_id : String
  message_id : String
  created_at : Int
  has_attachment : Nat
  attachment_count : Nat
  x_link_count : Nat
deriving Repr, DecidableEq

/-- A row of the `voice_sessions` table; `left_at`/`duration_seconds` are
nullable (`NULL` until the session is closed). -/
structure VoiceRow where
  id : Nat
  guild_id : String
  user_id : String
  channel_id : String
  joined_at : Int
  left_at : Option Int
  duration_seconds : Option Int
deriving Repr, DecidableEq

/-- The SQLite database state: the three tables plus the `AUTOINCREMENT`
counter for `voice_sessions.id`. -/
structure DB where
  guild_users : List UserRow
  messages : List MessageRow
  voice_sessions : List VoiceRow
  next_voice_id : Nat
deriving Repr, DecidableEq

/-- A fresh database, as produced by the `CREATE TABLE IF NOT EXISTS` setup. -/
def emptyDB : DB := ⟨[], [], [], 0⟩

/-- Prepared statement `insertOrUpdateUser`:
`INSERT INTO guild_users ... VALUES (g, u, ts, ts) ON CONFLICT(guild_id,
user_id) DO UPDATE SET last_seen = ts`. -/
def insertOrUpdateUser (g u : String) (ts : Int) (db : DB) : DB :=
  if db.guild_users.any (fun r => r.guild_id == g && r.user_id == u) then
    { db with guild_users := db.guild_users.map (fun r =>
        if r.guild_id == g && r.user_id == u then { r with last_seen := ts } else r) }
  else
    { db with guild_users := db.guild_users ++ [⟨g, u, ts, ts⟩] }

/-- Prepared statement `insertMessage`: `INSERT OR IGNORE INTO messages ...`
with `message_id` `UNIQUE`; a duplicate `message_id` makes the insert a
silent no-op. -/
def insertMessage (row : MessageRow) (db : DB) : DB :=
  if db.messages.any (fun m => m.message_id == row.message_id) then db
  else { db with messages := db.messages ++ [row] }

/-- Prepared statement `insertVoiceSession`: inserts an open session
(`left_at` and `duration_seconds` both `NULL`). -/
def insertVoiceSession (g u ch : String) (joined : Int) (db : DB) : DB :=
  { db with
      voice_sessions := db.voice_sessions ++
        [⟨db.next_voice_id, g, u, ch, joined, none, none⟩],
      next_voice_id := db.next_voice_id + 1 }

/-- Row predicate for an open session of a given (guild, user). -/
def isOpenFor (g u : String) (r : VoiceRow) : Bool :=
  r.guild_id == g && r.user_id == u && r.left_at == none

/-- Combiner for `ORDER BY joined_at DESC LIMIT 1`: keep the row with the
greatest `joined_at` (the earlier row in table order when tied). -/
def moreRecent (acc : Option VoiceRow) (r : VoiceRow) : Option VoiceRow :=
  match acc with
  | none => some r
  | some b => if r.joined_at > b.joined_at then some r else some b

/-- Prepared statement `selectOpenVoiceSession`:
`SELECT ... WHERE guild_id = ? AND user_id = ? AND left_at IS NULL ORDER BY
joined_at DESC LIMIT 1` — the open session with the greatest `joined_at`. -/
def selectOpenVoiceSession (g u : String) (db : DB) : Option VoiceRow :=
  (db.voice_sessions.filter (isOpenFor g u)).foldl moreRecent none

/-- Prepared statement `updateVoiceSessionLeave`:
`UPDATE voice_sessions SET left_at = l, duration_seconds = d WHERE id = i`. -/
def updateVoiceSessionLeave (l d : Int) (i : Nat) (db : DB) : DB :=
  { db with voice_sessions := db.voice_sessions.map (fun r =>
      if r.id == i then { r with left_at := some l, duration_seconds := some d } else r) }

/-!
The X/Twitter link regex.

`X_LINK_REGEX = /(?:https?:\/\/)?(?:www\.)?(?:x\.com|twitter\.com|t\.co)\/[^\s\/$.?#].[^\s]*/gi`

`logMessageToDB` counts links with `message.content.match(X_LINK_REGEX)`,
i.e. the number of non-overlapping, leftmost, case-insensitive matches.
The transcription below follows the JavaScript backtracking order exactly:
the optional `https?://` group (greedy, `https` before `http` before
absent), then the optional `www.`, then the domain alternation in source
order, then `/`, one character outside `[\s/$.?#]`, one `.` (any character
but a line terminator — this includes spaces), then a greedy run of
non-whitespace. -/

/-- JavaScript `\s` (the `i`/`g` flags do not affect character classes). -/
def isJsSpace (c : Char) : Bool :=
  c.toNat == 0x20 || c.toNat == 0x09 || c.toNat == 0x0a || c.toNat == 0x0b ||
  c.toNat == 0x0c || c.toNat == 0x0d || c.toNat == 0xa0 || c.toNat == 0x1680 ||
  (0x2000 ≤ c.toNat && c.toNat ≤ 0x200a) || c.toNat == 0x2028 || c.toNat == 0x2029 ||
  c.toNat == 0x202f || c.toNat == 0x205f || c.toNat == 0x3000 || c.toNat == 0xfeff

/-- JavaScript `.` (without the `s` flag): any character except a line
terminator. -/
def isJsDot (c : Char) : Bool :=
  !(c.toNat == 0x0a || c.toNat == 0x0d || c.toNat == 0x2028 || c.toNat == 0x2029)

/-- The character class `[^\s/$.?#]` after the domain's slash. -/
def isPathStart (c : Char) : Bool :=
  !(isJsSpace c || c == '/' || c == '$' || c == '.' || c == '?' || c == '#')

/-- Match a literal character sequence at the head of the input, returning
the rest on success. -/
def eatLit : List Char → List Char → Option (List Char)
  | [], cs => some cs
  | _ :: _, [] => none
  | p :: ps, c :: cs => if c == p then eatLit ps cs else none

/-- Length of the greedy `[^\s]*` run at the head of the input. -/
def nonSpaceRun : List Char → Nat
  | [] => 0
  | c :: cs => if isJsSpace c then 0 else 1 + nonSpaceRun cs

/-- The tail of the regex after the domain, `\/[^\s\/$.?#].[^\s]*`;
returns the number of characters it consumes. -/
def tailLen : List Char → Option Nat
  | c0 :: c1 :: c2 :: rest =>
      if c0 == '/' && isPathStart c1 && isJsDot c2 then some (3 + nonSpaceRun rest)
      else none
  | _ => none

/-- Try one domain alternative followed by the regex tail. -/
def tryDomainOne (d : List Char) (cs : List Char) : Option Nat :=
  match eatLit d cs with
  | some r => (tailLen r).map (fun t => d.length + t)
  | none => none

/-- The domain alternation `(?:x\.com|twitter\.com|t\.co)` then the tail,
alternatives in source order (backtracking to the next alternative when the tail fails). -/
def tryDomain (cs : List Char) : Option Nat :=
  match tryDomainOne "x.com".data cs with
  | some n => some n
  | none =>
    match tryDomainOne "twitter.com".data cs with
    | some n => some n
    | none => tryDomainOne "t.co".data cs

/-- The optional `(?:www\.)?` then the rest: greedily try with `www.`, backtracking to
the empty alternative when the continuation fails. -/
def tryWww (cs : List Char) : Option Nat :=
  match eatLit "www.".data cs with
  | some r =>
    match tryDomain r with
    | some n => some (4 + n)
    | none => tryDomain cs
  | none => tryDomain cs

/-- The `http://` branch of `(?:https?:\/\/)?`, then the empty branch. -/
def tryHttp (cs : List Char) : Option Nat :=
  match eatLit "http://".data cs with
  | some r =>
    match tryWww r with
    | some n => some (7 + n)
    | none => tryWww cs
  | none => tryWww cs

/-- The whole regex at one position: `https://` first (greedy `s?`), then
`http://`, then no protocol; returns the match length. -/
def matchLenAt (cs : List Char) : Option Nat :=
  match eatLit "https://".data cs with
  | some r =>
    match tryWww r with
    | some n => some (8 + n)
    | none => tryHttp cs
  | none => tryHttp cs

/-- Scan left to right counting non-overlapping matches, resuming after
each match (`String.prototype.match` with the `g` flag).  `fuel` bounds the
recursion; it is instantiated with the input length, which always
suffices because every step consumes at least one character. -/
def countMatches : Nat → List Char → Nat
  | 0, _ => 0
  | _, [] => 0
  | fuel + 1, c :: rest =>
    match matchLenAt (c :: rest) with
    | some n => 1 + countMatches fuel (rest.drop (n - 1))
    | none => countMatches fuel rest

/-- Transcription of the `content.match(X_LINK_REGEX)` match count — the `i` flag is modelled by
lowercasing the input (the pattern's literals are already lowercase). -/
def xLinkCount (s : String) : Nat :=
  countMatches (s.data.map Char.toLower).length (s.data.map Char.toLower)

/-!
Events and handlers.
-/

/-- A `messageCreate` event, as consumed by `logMessageToDB`:
`guild_id = none` for a DM (`!message.guild`), `author_is_bot` for
`message.author?.bot`, `attachments_size` for `message.attachments?.size`,
and `ts` for the `nowTs()` call made while handling the event. -/
structure MessageEvent where
  guild_id : Option String
  channel_id : String
  author_id : String
  author_is_bot : Bool
  message_id : String
  content : String
  attachments_size : Nat
  ts : Int
deriving Repr, DecidableEq

/-- Transcription of `logMessageToDB`: skip DMs and bot authors; upsert the presence row;
then insert the message row with the attachment fields and the X-link
count (`xCount` stays 0 when `message.content` is falsy, i.e. empty). -/
def logMessageToDB (e : MessageEvent) (db : DB) : DB :=
  match e.guild_id with
  | none => db
  | some g =>
    if e.author_is_bot then db
    else
      let db1 := insertOrUpdateUser g e.author_id e.ts db
      let hasAttachment := if e.attachments_size > 0 then 1 else 0
      let xCount := if e.content == "" then 0 else xLinkCount e.content
      insertMessage
        ⟨g, e.channel_id, e.author_id, e.message_id, e.ts,
         hasAttachment, e.attachments_size, xCount⟩ db1

/-- A `voiceStateUpdate` event, as consumed by `onVoiceUpdate`:
`old_channel`/`new_channel` are `oldState.channel` and `newState.channel`
(`none` when not in a voice channel), `is_bot` is `member.user?.bot`, and
`ts` stands for the `nowTs()` calls made while handling the event. -/
structure VoiceEvent where
  guild_id : String
  user_id : String
  is_bot : Bool
  old_channel : Option String
  new_channel : Option String
  ts : Int
deriving Repr, DecidableEq

/-- Transcription of `onVoiceUpdate`: join inserts an open session; leave closes the most
recent open session when one exists (and is silently dropped otherwise);
a switch to a different channel closes the old session and then opens a
new one; everything else is a no-op. -/
def onVoiceUpdate (e : VoiceEvent) (db : DB) : DB :=
  if e.is_bot then db
  else
    match e.old_channel, e.new_channel with
    | none, some ch => insertVoiceSession e.guild_id e.user_id ch e.ts db
    | some _, none =>
      match selectOpenVoiceSession e.guild_id e.user_id db with
      | some r => updateVoiceSessionLeave e.ts (e.ts - r.joined_at) r.id db
      | none => db
    | some a, some b =>
      if a ≠ b then
        let db1 :=
          match selectOpenVoiceSession e.guild_id e.user_id db with
          | some r => updateVoiceSessionLeave e.ts (e.ts - r.joined_at) r.id db
          | none => db
        insertVoiceSession e.guild_id e.user_id b e.ts db1
      else db
    | none, none => db

/-- An inbound event of either kind, for reasoning about full streams. -/
inductive Event where
  | msg (e : MessageEvent)
  | voice (e : VoiceEvent)
deriving Repr, DecidableEq

/-- Dispatch one event to its handler, as the `client.on(...)` listeners do. -/
def applyEvent (db : DB) (ev : Event) : DB :=
  match ev with
  | .msg e => logMessageToDB e db
  | .voice e => onVoiceUpdate e db

/-- Run a whole event stream from a given database state. -/
def applyEvents (es : List Event) (db : DB) : DB :=
  es.foldl applyEvent db

/-!
The stats query.
-/

/-- The four aggregates shown by `/userstats` (embed formatting aside). -/
structure Stats where
  total_messages : Nat
  total_attachments : Nat
  total_voice_seconds : Int
  total_x_links : Nat
deriving Repr, DecidableEq

/-- Row predicate for the `WHERE guild_id = ? AND user_id = ?` filters. -/
def msgFor (g u : String) (m : MessageRow) : Bool :=
  m.guild_id == g && m.user_id == u

/-- Row predicate for the voice-table filter of the stats query. -/
def voiceFor (g u : String) (r : VoiceRow) : Bool :=
  r.guild_id == g && r.user_id == u

/-- Transcription of the three queries run by `buildStatsEmbed`: `COUNT(*)` and
`COALESCE(SUM(attachment_count),0)` over `messages`,
`COALESCE(SUM(duration_seconds),0)` over `voice_sessions` (SQL `SUM`
skips `NULL` values, so an open session adds nothing), and
`COALESCE(SUM(x_link_count),0)` over `messages`. -/
def buildStatsEmbed (g u : String) (db : DB) : Stats :=
  let msgs := db.messages.filter (msgFor g u)
  let voices := db.voice_sessions.filter (voiceFor g u)
  { total_messages := msgs.length
    total_attachments := msgs.foldl (fun acc m => acc + m.attachment_count) 0
    total_voice_seconds := voices.foldl (fun acc r => acc + r.duration_seconds.getD 0) 0
    total_x_links := msgs.foldl (fun acc m => acc + m.x_link_count) 0 }

/-- Transcription of `secondsToHrsMin`: whole hours and whole remaining minutes. -/
def secondsToHrsMin (sec : Nat) : String :=
  toString (sec / 3600) ++ "h " ++ toString (sec % 3600 / 60) ++ "m"

/-!
Derived notions used by the statements.
-/

/-- Number of open sessions for a (guild, user) pair. -/
def openCountGU (g u : String) (db : DB) : Nat :=
  db.voice_sessions.countP (isOpenFor g u)

/-- Lookup of the `guild_users` row of a (guild, user) pair. -/
def lookupUser (g u : String) (db : DB) : Option UserRow :=
  db.guild_users.find? (fun r => r.guild_id == g && r.user_id == u)

/-- Sum of `duration_seconds` over the closed sessions (those with
`left_at` set) of a (guild, user) pair — the spec's reading of
`total_voice_seconds`. -/
def closedVoiceSum (g u : String) (db : DB) : Int :=
  (db.voice_sessions.filter (fun r => voiceFor g u r && r.left_at.isSome)).foldl
    (fun acc r => acc + r.duration_seconds.getD 0) 0

/-- An event is a join transition of the given pair (a non-bot
`voiceStateUpdate` with `old = none` and `new` a channel). -/
def isJoinFor (g u : String) : Event → Bool
  | .voice e =>
    !e.is_bot && e.guild_id == g && e.user_id == u &&
      e.old_channel == none && e.new_channel.isSome
  | .msg _ => false

/-- A stream is consistent for a pair when every join transition of that
pair arrives while the pair has no open session — the well-formedness
Discord's gateway guarantees for real voice-state streams. -/
def consistentFor (g u : String) : List Event → DB → Bool
  | [], _ => true
  | ev :: rest, db =>
    (!(isJoinFor g u ev) || openCountGU g u db == 0) &&
      consistentFor g u rest (applyEvent db ev)

/-- An open voice row (no `left_at`) also has no `duration_seconds`; this
holds of every state the handlers can produce, and is what makes the
`SUM(duration_seconds)` query count closed sessions only. -/
def nullCoupled (db : DB) : Prop :=
  ∀ r ∈ db.voice_sessions, r.left_at = none → r.duration_seconds = none

/-!
Frame lemmas: each prepared statement touches exactly one table.
-/

theorem insertOrUpdateUser_messages (g u : String) (ts : Int) (db : DB) :
    (insertOrUpdateUser g u ts db).messages = db.messages := by
  unfold insertOrUpdateUser; split <;> rfl

theorem insertOrUpdateUser_voice (g u : String) (ts : Int) (db : DB) :
    (insertOrUpdateUser g u ts db).voice_sessions = db.voice_sessions := by
  unfold insertOrUpdateUser; split <;> rfl

theorem insertMessage_users (row : MessageRow) (db : DB) :
    (insertMessage row db).guild_users = db.guild_users := by
  unfold insertMessage; split <;> rfl

theorem insertMessage_voice (row : MessageRow) (db : DB) :
    (insertMessage row db).voice_sessions = db.voice_sessions := by
  unfold insertMessage; split <;> rfl

theorem logMessageToDB_voice (e : MessageEvent) (db : DB) :
    (logMessageToDB e db).voice_sessions = db.voice_sessions := by
  unfold logMessageToDB
  cases e.guild_id with
  | none => rfl
  | some g =>
    simp only []
    split
    · rfl
    · rw [insertMessage_voice, insertOrUpdateUser_voice]

theorem onVoiceUpdate_users (e : VoiceEvent) (db : DB) :
    (onVoiceUpdate e db).guild_users = db.guild_users := by
  unfold onVoiceUpdate insertVoiceSession updateVoiceSessionLeave
  split
  · rfl
  · split <;> try rfl
    · split <;> rfl
    · split
      · split <;> rfl
      · rfl

theorem onVoiceUpdate_messages (e : VoiceEvent) (db : DB) :
    (onVoiceUpdate e db).messages = db.messages := by
  unfold onVoiceUpdate insertVoiceSession updateVoiceSessionLeave
  split
  · rfl
  · split <;> try rfl
    · split <;> rfl
    · split
      · split <;> rfl
      · rfl

/-!
Facts about the open-session scan.
-/

theorem moreRecent_foldl_mem :
    ∀ (l : List VoiceRow) (acc : Option VoiceRow) (r : VoiceRow),
      l.foldl moreRecent acc = some r → acc = some r ∨ r ∈ l := by
  intro l
  induction l with
  | nil => intro acc r h; exact Or.inl h
  | cons x xs ih =>
    intro acc r h
    simp only [List.foldl_cons] at h
    rcases ih (moreRecent acc x) r h with h' | h'
    · cases acc with
      | none =>
        simp only [moreRecent] at h'
        exact Or.inr (by simp [← Option.some.injEq r x, h'.symm])
      | some b =>
        simp only [moreRecent] at h'
        split at h'
        · exact Or.inr (by simp [(Option.some.injEq x r).mp h'])
        · exact Or.inl h'
    · exact Or.inr (List.mem_cons_of_mem x h')

theorem moreRecent_foldl_isSome :
    ∀ (l : List VoiceRow) (b : VoiceRow), (l.foldl moreRecent (some b)).isSome := by
  intro l
  induction l with
  | nil => intro b; rfl
  | cons x xs ih =>
    intro b
    simp only [List.foldl_cons, moreRecent]
    split
    · exact ih x
    · exact ih b

theorem selectOpen_mem (g u : String) (db : DB) (r : VoiceRow)
    (h : selectOpenVoiceSession g u db = some r) :
    r ∈ db.voice_sessions ∧ isOpenFor g u r = true := by
  unfold selectOpenVoiceSession at h
  rcases moreRecent_foldl_mem _ none r h with h' | h'
  · cases h'
  · exact ⟨(List.mem_filter.mp h').1, (List.mem_filter.mp h').2⟩

theorem selectOpen_none_of_zero (g u : String) (db : DB)
    (h : openCountGU g u db = 0) : selectOpenVoiceSession g u db = none := by
  unfold openCountGU at h
  unfold selectOpenVoiceSession
  have hnil : db.voice_sessions.filter (isOpenFor g u) = [] :=
    List.filter_eq_nil_iff.mpr (List.countP_eq_zero.mp h)
  rw [hnil]
  rfl

theorem selectOpen_isSome_of_pos (g u : String) (db : DB)
    (h : 0 < openCountGU g u db) : ∃ r, selectOpenVoiceSession g u db = some r := by
  unfold openCountGU at h
  unfold selectOpenVoiceSession
  rw [List.countP_eq_length_filter] at h
  cases hf : db.voice_sessions.filter (isOpenFor g u) with
  | nil => rw [hf] at h; cases h
  | cons x xs =>
    simp only [List.foldl_cons]
    have : moreRecent none x = some x := rfl
    rw [this]
    exact Option.isSome_iff_exists.mp (moreRecent_foldl_isSome xs x)

/-!
How each write changes the number of open sessions of a pair.
-/

theorem countP_map_le_of_imp {α : Type} (p : α → Bool) (f : α → α) (l : List α)
    (h : ∀ a, p (f a) = true → p a = true) :
    (l.map f).countP p ≤ l.countP p := by
  rw [List.countP_map]
  exact List.countP_mono_left (fun x _ hx => h x hx)

theorem countP_map_lt_of_witness {α : Type} (p : α → Bool) (f : α → α) (l : List α)
    (h : ∀ a, p (f a) = true → p a = true)
    (r : α) (hr : r ∈ l) (hpr : p r = true) (hfr : p (f r) = false) :
    (l.map f).countP p < l.countP p := by
  induction l with
  | nil => cases hr
  | cons x xs ih =>
    rcases List.mem_cons.mp hr with rfl | hmem
    · have hle := countP_map_le_of_imp p f xs h
      simp only [List.map_cons, List.countP_cons, hfr, hpr]
      simp only [Bool.false_eq_true, if_false, if_true]
      omega
    · have hlt := ih hmem
      have hhead : (if p (f x) then 1 else 0) ≤ (if p x then 1 else 0) := by
        by_cases hx : p (f x) = true
        · simp [hx, h x hx]
        · simp [Bool.eq_false_iff.mpr hx]
      simp only [List.map_cons, List.countP_cons]
      omega

theorem openCount_update_le (g u : String) (l d : Int) (i : Nat) (db : DB) :
    openCountGU g u (updateVoiceSessionLeave l d i db) ≤ openCountGU g u db := by
  unfold openCountGU updateVoiceSessionLeave
  apply countP_map_le_of_imp
  intro a ha
  by_cases hid : (a.id == i) = true
  · rw [if_pos hid] at ha
    simp [isOpenFor] at ha
  · rw [if_neg hid] at ha
    exact ha

theorem openCount_close_lt (g u : String) (ts d : Int) (db : DB) (r : VoiceRow)
    (h : selectOpenVoiceSession g u db = some r) :
    openCountGU g u (updateVoiceSessionLeave ts d r.id db) < openCountGU g u db := by
  obtain ⟨hmem, hopen⟩ := selectOpen_mem g u db r h
  unfold openCountGU updateVoiceSessionLeave
  apply countP_map_lt_of_witness _ _ _ _ r hmem hopen
  · simp [isOpenFor]
  · intro a ha
    by_cases hid : (a.id == r.id) = true
    · rw [if_pos hid] at ha
      simp [isOpenFor] at ha
    · rw [if_neg hid] at ha
      exact ha

theorem openCount_insert (g u g' u' ch : String) (t : Int) (db : DB) :
    openCountGU g u (insertVoiceSession g' u' ch t db) =
      openCountGU g u db + (if g' == g && u' == u then 1 else 0) := by
  unfold openCountGU insertVoiceSession
  rw [List.countP_append, List.countP_singleton]
  simp [isOpenFor]

/-!
Preservation of the one-open-session bound along consistent streams.
-/

theorem openCount_logMessage (g u : String) (e : MessageEvent) (db : DB) :
    openCountGU g u (logMessageToDB e db) = openCountGU g u db := by
  unfold openCountGU
  rw [logMessageToDB_voice]

theorem openCount_step_le_one (g u : String) (ev : Event) (db : DB)
    (h1 : openCountGU g u db ≤ 1)
    (h2 : isJoinFor g u ev = true → openCountGU g u db = 0) :
    openCountGU g u (applyEvent db ev) ≤ 1 := by
  cases ev with
  | msg e =>
    show openCountGU g u (logMessageToDB e db) ≤ 1
    rw [openCount_logMessage]
    exact h1
  | voice e =>
    show openCountGU g u (onVoiceUpdate e db) ≤ 1
    unfold onVoiceUpdate
    by_cases hb : e.is_bot
    · rw [if_pos hb]; exact h1
    · rw [if_neg hb]
      cases ho : e.old_channel with
      | some a =>
        cases hn : e.new_channel with
        | none =>
          simp only []
          cases hsel : selectOpenVoiceSession e.guild_id e.user_id db with
          | none => exact h1
          | some r => exact le_trans (openCount_update_le g u e.ts (e.ts - r.joined_at) r.id db) h1
        | some b =>
          simp only []
          by_cases hab : a ≠ b
          · rw [if_pos hab]
            rw [openCount_insert]
            by_cases hpair : (e.guild_id == g && e.user_id == u) = true
            · rw [if_pos hpair]
              have hzero :
                  openCountGU g u
                    (match selectOpenVoiceSession e.guild_id e.user_id db with
                     | some r => updateVoiceSessionLeave e.ts (e.ts - r.joined_at) r.id db
                     | none => db) = 0 := by
                have hg : e.guild_id = g := by
                  have := Bool.and_elim_left hpair
                  exact eq_of_beq this
                have hu : e.user_id = u := by
                  have := Bool.and_elim_right hpair
                  exact eq_of_beq this
                cases hsel : selectOpenVoiceSession e.guild_id e.user_id db with
                | none =>
                  by_contra hne
                  obtain ⟨r, hr⟩ := selectOpen_isSome_of_pos g u db (Nat.pos_of_ne_zero hne)
                  rw [hg, hu] at hsel
                  rw [hsel] at hr
                  cases hr
                | some r =>
                  simp only []
                  have hlt := openCount_close_lt g u e.ts (e.ts - r.joined_at) db r
                    (by rw [← hg, ← hu]; exact hsel)
                  omega
              omega
            · rw [if_neg hpair]
              have hle :
                  openCountGU g u
                    (match selectOpenVoiceSession e.guild_id e.user_id db with
                     | some r => updateVoiceSessionLeave e.ts (e.ts - r.joined_at) r.id db
                     | none => db) ≤ openCountGU g u db := by
                cases hsel : selectOpenVoiceSession e.guild_id e.user_id db with
                | none => exact le_refl _
                | some r => exact openCount_update_le g u e.ts (e.ts - r.joined_at) r.id db
              omega
          · rw [if_neg hab]; exact h1
      | none =>
        cases hn : e.new_channel with
        | none => exact h1
        | some ch =>
          simp only []
          rw [openCount_insert]
          by_cases hpair : (e.guild_id == g && e.user_id == u) = true
          · rw [if_pos hpair]
            have hjoin : isJoinFor g u (.voice e) = true := by
              simp [isJoinFor, hb, ho, hn, Bool.and_elim_left hpair, Bool.and_elim_right hpair]
            rw [h2 hjoin]
          · rw [if_neg hpair]
            omega

theorem consistent_run_le_one (g u : String) :
    ∀ (es : List Event) (db : DB), openCountGU g u db ≤ 1 →
      consistentFor g u es db = true → openCountGU g u (applyEvents es db) ≤ 1 := by
  intro es
  induction es with
  | nil => intro db h1 _; exact h1
  | cons ev rest ih =>
    intro db h1 hc
    unfold consistentFor at hc
    obtain ⟨hhead, htail⟩ := Bool.and_eq_true_iff.mp hc
    have hstep : openCountGU g u (applyEvent db ev) ≤ 1 := by
      apply openCount_step_le_one g u ev db h1
      intro hjoin
      rcases Bool.or_eq_true_iff.mp hhead with h | h
      · rw [hjoin] at h; cases h
      · exact eq_of_beq h
    exact ih (applyEvent db ev) hstep htail

theorem consistentFor_append_left (g u : String) :
    ∀ (es1 es2 : List Event) (db : DB),
      consistentFor g u (es1 ++ es2) db = true → consistentFor g u es1 db = true := by
  intro es1
  induction es1 with
  | nil => intro es2 db _; rfl
  | cons ev rest ih =>
    intro es2 db h
    unfold consistentFor at h ⊢
    obtain ⟨hhead, htail⟩ := Bool.and_eq_true_iff.mp h
    exact Bool.and_eq_true_iff.mpr ⟨hhead, ih es2 (applyEvent db ev) htail⟩

/-!
Null-coupling of `left_at` and `duration_seconds` in reachable states.
-/

theorem nullCoupled_insert (g u ch : String) (t : Int) (db : DB)
    (h : nullCoupled db) : nullCoupled (insertVoiceSession g u ch t db) := by
  intro r hr
  rcases List.mem_append.mp hr with hmem | hmem
  · exact h r hmem
  · rcases List.mem_singleton.mp hmem with rfl
    intro _
    rfl

theorem nullCoupled_update (l d : Int) (i : Nat) (db : DB)
    (h : nullCoupled db) : nullCoupled (updateVoiceSessionLeave l d i db) := by
  intro r hr
  rcases List.mem_map.mp hr with ⟨x, hx, hfx⟩
  by_cases hid : (x.id == i) = true
  · rw [if_pos hid] at hfx
    intro habs
    rw [← hfx] at habs
    cases habs
  · rw [if_neg hid] at hfx
    rw [← hfx]
    exact h x hx

theorem nullCoupled_step (ev : Event) (db : DB) (h : nullCoupled db) :
    nullCoupled (applyEvent db ev) := by
  cases ev with
  | msg e =>
    intro r hr
    simp only [applyEvent] at hr
    rw [logMessageToDB_voice] at hr
    exact h r hr
  | voice e =>
    show nullCoupled (onVoiceUpdate e db)
    unfold onVoiceUpdate
    split
    · exact h
    · split
      · exact nullCoupled_insert _ _ _ _ _ h
      · split
        · exact nullCoupled_update _ _ _ _ h
        · exact h
      · split
        · apply nullCoupled_insert
          split
          · exact nullCoupled_update _ _ _ _ h
          · exact h
        · exact h
      · exact h

theorem nullCoupled_run (es : List Event) : nullCoupled (applyEvents es emptyDB) := by
  have main : ∀ (es' : List Event) (db : DB), nullCoupled db →
      nullCoupled (applyEvents es' db) := by
    intro es'
    induction es' with
    | nil => intro db h; exact h
    | cons ev rest ih => intro db h; exact ih (applyEvent db ev) (nullCoupled_step ev db h)
  exact main es emptyDB (by intro r hr; cases hr)

theorem voiceSum_closed (g u : String) :
    ∀ (l : List VoiceRow), (∀ r ∈ l, r.left_at = none → r.duration_seconds = none) →
      ∀ (a : Int),
        (l.filter (voiceFor g u)).foldl (fun acc r => acc + r.duration_seconds.getD 0) a =
          (l.filter (fun r => voiceFor g u r && r.left_at.isSome)).foldl
            (fun acc r => acc + r.duration_seconds.getD 0) a := by
  intro l
  induction l with
  | nil => intro _ a; rfl
  | cons x xs ih =>
    intro h a
    have hxs : ∀ r ∈ xs, r.left_at = none → r.duration_seconds = none :=
      fun r hr => h r (List.mem_cons_of_mem x hr)
    by_cases hv : voiceFor g u x = true
    · cases hleft : x.left_at with
      | some t =>
        simp only [List.filter_cons, hv, hleft, Option.isSome_some, Bool.and_true, if_true,
          List.foldl_cons]
        exact ih hxs _
      | none =>
        have hdur : x.duration_seconds = none := h x (List.mem_cons_self x xs) hleft
        simp only [List.filter_cons, hv, hleft, Option.isSome_none, Bool.and_false, if_true,
          Bool.false_eq_true, if_false, List.foldl_cons, hdur, Option.getD_none, add_zero]
        exact ih hxs _
    · have hvf : voiceFor g u x = false := Bool.eq_false_iff.mpr hv
      simp only [List.filter_cons, hvf, Bool.false_and, Bool.false_eq_true, if_false]
      exact ih hxs a

/-!
Presence-upsert lookup facts.
-/

theorem find?_map_eq {α : Type} (p : α → Bool) (f : α → α) (l : List α)
    (h : ∀ x, p (f x) = p x) : (l.map f).find? p = (l.find? p).map f := by
  induction l with
  | nil => rfl
  | cons x xs ih =>
    cases hpx : p x with
    | true =>
      rw [List.map_cons, List.find?_cons_of_pos _ (by rw [h]; exact hpx),
        List.find?_cons_of_pos _ hpx]
      rfl
    | false =>
      rw [List.map_cons, List.find?_cons_of_neg _ (by rw [h, hpx]; exact Bool.false_ne_true),
        List.find?_cons_of_neg _ (by rw [hpx]; exact Bool.false_ne_true)]
      exact ih

theorem upsert_lookup_of_none (g u : String) (ts : Int) (db : DB)
    (h : lookupUser g u db = none) :
    lookupUser g u (insertOrUpdateUser g u ts db) = some ⟨g, u, ts, ts⟩ := by
  unfold lookupUser at h ⊢
  unfold insertOrUpdateUser
  have hany : db.guild_users.any (fun r => r.guild_id == g && r.user_id == u) = false := by
    rw [List.any_eq_false]
    exact List.find?_eq_none.mp h
  rw [if_neg (by rw [hany]; exact Bool.false_ne_true)]
  simp only [List.find?_append, h, Option.none_or]
  rw [List.find?_cons_of_pos _ (by simp)]

theorem upsert_lookup_of_some (g u : String) (ts : Int) (db : DB) (r : UserRow)
    (h : lookupUser g u db = some r) :
    lookupUser g u (insertOrUpdateUser g u ts db) = some { r with last_seen := ts } := by
  unfold lookupUser at h ⊢
  unfold insertOrUpdateUser
  have hp := List.find?_some h
  have hany : db.guild_users.any (fun r => r.guild_id == g && r.user_id == u) = true := by
    rw [List.any_eq_true]
    exact ⟨r, List.mem_of_find?_eq_some h, hp⟩
  rw [if_pos hany]
  rw [find?_map_eq _ _ _ (by
    intro x
    by_cases hx : (x.guild_id == g && x.user_id == u) = true
    · rw [if_pos hx]
    · rw [if_neg hx])]
  rw [h]
  rw [show (some r).map (fun x => if (x.guild_id == g && x.user_id == u) = true
      then { x with last_seen := ts } else x) =
    some (if (r.guild_id == g && r.user_id == u) = true
      then { r with last_seen := ts } else r) from rfl]
  rw [if_pos hp]

theorem upsert_keeps_first (g u g' u' : String) (ts : Int) (db : DB) (r : UserRow)
    (h : lookupUser g u db = some r) :
    ∃ r', lookupUser g u (insertOrUpdateUser g' u' ts db) = some r' ∧
      r'.first_seen = r.first_seen := by
  unfold lookupUser at h ⊢
  unfold insertOrUpdateUser
  by_cases hany : (db.guild_users.any fun x => x.guild_id == g' && x.user_id == u') = true
  · rw [if_pos hany]
    rw [find?_map_eq _ _ _ (by
      intro x
      by_cases hx : (x.guild_id == g' && x.user_id == u') = true
      · rw [if_pos hx]
      · rw [if_neg hx])]
    rw [h]
    by_cases hr : (r.guild_id == g' && r.user_id == u') = true
    · exact ⟨{ r with last_seen := ts }, by rw [show (some r).map (fun x =>
        if (x.guild_id == g' && x.user_id == u') = true
        then { x with last_seen := ts } else x) =
          some (if (r.guild_id == g' && r.user_id == u') = true
            then { r with last_seen := ts } else r) from rfl, if_pos hr], rfl⟩
    · exact ⟨r, by rw [show (some r).map (fun x =>
        if (x.guild_id == g' && x.user_id == u') = true
        then { x with last_seen := ts } else x) =
          some (if (r.guild_id == g' && r.user_id == u') = true
            then { r with last_seen := ts } else r) from rfl, if_neg hr], rfl⟩
  · rw [if_neg hany]
    exact ⟨r, by rw [List.find?_append, h, Option.or_some], rfl⟩

theorem upsert_lookup_last (g u : String) (ts : Int) (db : DB) :
    ∃ r', lookupUser g u (insertOrUpdateUser g u ts db) = some r' ∧
      r'.last_seen = ts := by
  cases h : lookupUser g u db with
  | none => exact ⟨⟨g, u, ts, ts⟩, upsert_lookup_of_none g u ts db h, rfl⟩
  | some r => exact ⟨{ r with last_seen := ts }, upsert_lookup_of_some g u ts db r h, rfl⟩

theorem lookup_logMessage_first (g u : String) (e : MessageEvent) (db : DB) (r : UserRow)
    (h : lookupUser g u db = some r) :
    ∃ r', lookupUser g u (logMessageToDB e db) = some r' ∧
      r'.first_seen = r.first_seen := by
  unfold logMessageToDB
  cases e.guild_id with
  | none => exact ⟨r, h, rfl⟩
  | some g' =>
    simp only []
    split
    · exact ⟨r, h, rfl⟩
    · have hins : ∀ db' : DB, lookupUser g u (insertMessage
          ⟨g', e.channel_id, e.author_id, e.message_id, e.ts,
           (if e.attachments_size > 0 then 1 else 0), e.attachments_size,
           (if e.content == "" then 0 else xLinkCount e.content)⟩ db') =
          lookupUser g u db' := by
        intro db'
        unfold lookupUser
        rw [insertMessage_users]
      rw [hins]
      exact upsert_keeps_first g u g' e.author_id e.ts db r h

theorem lookup_step_first (g u : String) (ev : Event) (db : DB) (r : UserRow)
    (h : lookupUser g u db = some r) :
    ∃ r', lookupUser g u (applyEvent db ev) = some r' ∧
      r'.first_seen = r.first_seen := by
  cases ev with
  | msg e => exact lookup_logMessage_first g u e db r h
  | voice e =>
    refine ⟨r, ?_, rfl⟩
    show lookupUser g u (onVoiceUpdate e db) = some r
    unfold lookupUser
    rw [onVoiceUpdate_users]
    exact h

theorem lookup_run_first (g u : String) :
    ∀ (es : List Event) (db : DB) (r : UserRow), lookupUser g u db = some r →
      ∃ r', lookupUser g u (applyEvents es db) = some r' ∧
        r'.first_seen = r.first_seen := by
  intro es
  induction es with
  | nil => intro db r h; exact ⟨r, h, rfl⟩
  | cons ev rest ih =>
    intro db r h
    obtain ⟨r1, h1, hfs1⟩ := lookup_step_first g u ev db r h
    obtain ⟨r2, h2, hfs2⟩ := ih (applyEvent db ev) r1 h1
    exact ⟨r2, h2, hfs2.trans hfs1⟩

theorem logMessage_appends (e : MessageEvent) (db : DB) (g : String)
    (hg : e.guild_id = some g) (hb : e.author_is_bot = false)
    (hfresh : (db.messages.any fun m => m.message_id == e.message_id) = false) :
    (logMessageToDB e db).messages = db.messages ++
      [⟨g, e.channel_id, e.author_id, e.message_id, e.ts,
        (if e.attachments_size > 0 then 1 else 0), e.attachments_size,
        (if e.content == "" then 0 else xLinkCount e.content)⟩] := by
  unfold logMessageToDB
  rw [hg]
  simp only [hb, Bool.false_eq_true, if_false]
  unfold insertMessage
  rw [insertOrUpdateUser_messages]
  rw [if_neg (by rw [hfresh]; exact Bool.false_ne_true)]

theorem logMessage_dup (e : MessageEvent) (db : DB) (g : String)
    (hg : e.guild_id = some g) (hb : e.author_is_bot = false)
    (hdup : (db.messages.any fun m => m.message_id == e.message_id) = true) :
    (logMessageToDB e db).messages = db.messages := by
  unfold logMessageToDB
  rw [hg]
  simp only [hb, Bool.false_eq_true, if_false]
  unfold insertMessage
  rw [insertOrUpdateUser_messages]
  rw [if_pos hdup]
  rw [insertOrUpdateUser_messages]

/-!
The claims.
-/

/-- C1 (counterexample): the invariant "at most one open `voice_sessions`
row per (guild, user)" does not hold for every event sequence — two
consecutive join transitions (no leave between them) for the same pair
leave two rows with `left_at = NULL`. -/
theorem double_join_two_open_sessions :
    openCountGU "g" "u" (applyEvents
      [.voice ⟨"g", "u", false, none, some "A", 1000⟩,
       .voice ⟨"g", "u", false, none, some "A", 1001⟩] emptyDB) = 2 ∧
    ¬ openCountGU "g" "u" (applyEvents
      [.voice ⟨"g", "u", false, none, some "A", 1000⟩,
       .voice ⟨"g", "u", false, none, some "A", 1001⟩] emptyDB) ≤ 1 := by
  constructor
  · decide
  · decide

/-- C1 (amended): for every event stream in which a join transition for a
(guild, user) only arrives while that pair has no open session, at any
point in the stream at most one `voice_sessions` row per (guild, user)
has `left_at = NULL`. -/
theorem open_sessions_at_most_one_of_consistent (g u : String) (es1 es2 : List Event)
    (h : consistentFor g u (es1 ++ es2) emptyDB = true) :
    openCountGU g u (applyEvents es1 emptyDB) ≤ 1 := by
  have h1 := consistentFor_append_left g u es1 es2 emptyDB h
  have h0 : openCountGU g u emptyDB ≤ 1 := by
    unfold openCountGU emptyDB
    simp
  exact consistent_run_le_one g u es1 emptyDB h0 h1

/-- Witness for the amended C1 at a concrete consistent stream. -/
theorem open_sessions_at_most_one_of_consistent_witness :
    consistentFor "g" "u"
      ([.voice ⟨"g", "u", false, none, some "A", 1000⟩] ++
       [.voice ⟨"g", "u", false, some "A", none, 1200⟩]) emptyDB = true ∧
    openCountGU "g" "u"
      (applyEvents [.voice ⟨"g", "u", false, none, some "A", 1000⟩] emptyDB) ≤ 1 :=
  ⟨by decide,
   open_sessions_at_most_one_of_consistent "g" "u"
     [.voice ⟨"g", "u", false, none, some "A", 1000⟩]
     [.voice ⟨"g", "u", false, some "A", none, 1200⟩] (by decide)⟩

/-- C2: in every database state the tracker can produce, the stats query's
`total_voice_seconds` equals the sum of `duration_seconds` over the closed
sessions of the pair only; open sessions (`left_at = NULL`, hence
`duration_seconds = NULL`, skipped by SQL `SUM`) contribute 0. -/
theorem total_voice_seconds_eq_closed_sum (g u : String) (es : List Event) :
    (buildStatsEmbed g u (applyEvents es emptyDB)).total_voice_seconds =
      closedVoiceSum g u (applyEvents es emptyDB) := by
  show ((applyEvents es emptyDB).voice_sessions.filter (voiceFor g u)).foldl
      (fun acc r => acc + r.duration_seconds.getD 0) 0 = _
  unfold closedVoiceSum
  exact voiceSum_closed g u _ (nullCoupled_run es) 0

/-- C3: a channel switch processes the close of the old session strictly
before the insert of the new one (it equals a leave followed by a join at
the same timestamp), and the scenario join(A, t=1000), switch(A→B,
t=1500), leave(t=1800) ends with exactly the two closed sessions
(A, duration 500) and (B, duration 300). -/
theorem switch_closes_then_opens (g u a b : String) (ts : Int) (db : DB) (hab : a ≠ b) :
    onVoiceUpdate ⟨g, u, false, some a, some b, ts⟩ db =
      onVoiceUpdate ⟨g, u, false, none, some b, ts⟩
        (onVoiceUpdate ⟨g, u, false, some a, none, ts⟩ db) ∧
    (applyEvents
      [.voice ⟨"g", "u", false, none, some "A", 1000⟩,
       .voice ⟨"g", "u", false, some "A", some "B", 1500⟩,
       .voice ⟨"g", "u", false, some "B", none, 1800⟩] emptyDB).voice_sessions =
      [⟨0, "g", "u", "A", 1000, some 1500, some 500⟩,
       ⟨1, "g", "u", "B", 1500, some 1800, some 300⟩] := by
  constructor
  · show (if (false = true) then db else
        if a ≠ b then
          insertVoiceSession g u b ts
            (match selectOpenVoiceSession g u db with
             | some r => updateVoiceSessionLeave ts (ts - r.joined_at) r.id db
             | none => db)
        else db) = _
    rw [if_neg Bool.false_ne_true, if_pos hab]
    rfl
  · decide

/-- Witness for C3 at concrete channels and an empty database. -/
theorem switch_closes_then_opens_witness :
    ("A" : String) ≠ "B" ∧
    onVoiceUpdate ⟨"g", "u", false, some "A", some "B", 1500⟩ emptyDB =
      onVoiceUpdate ⟨"g", "u", false, none, some "B", 1500⟩
        (onVoiceUpdate ⟨"g", "u", false, some "A", none, 1500⟩ emptyDB) :=
  ⟨by decide, (switch_closes_then_opens "g" "u" "A" "B" 1500 emptyDB (by decide)).1⟩

/-- C4: delivering the same message event twice leaves exactly one
`messages` row with that `message_id`; the second delivery is a silent
no-op on the `messages` table (the handler is total — no error). -/
theorem duplicate_message_insert_idempotent (e : MessageEvent) (db : DB) (g : String)
    (hg : e.guild_id = some g) (hb : e.author_is_bot = false)
    (hfresh : (db.messages.any fun m => m.message_id == e.message_id) = false) :
    (logMessageToDB e (logMessageToDB e db)).messages = (logMessageToDB e db).messages ∧
    (logMessageToDB e (logMessageToDB e db)).messages.countP
      (fun m => m.message_id == e.message_id) = 1 := by
  have h1 := logMessage_appends e db g hg hb hfresh
  have hdup : ((logMessageToDB e db).messages.any
      fun m => m.message_id == e.message_id) = true := by
    rw [h1, List.any_append]
    simp
  have h2 := logMessage_dup e (logMessageToDB e db) g hg hb hdup
  refine ⟨h2, ?_⟩
  rw [h2, h1, List.countP_append]
  have hzero : db.messages.countP (fun m => m.message_id == e.message_id) = 0 := by
    rw [List.countP_eq_zero]
    intro m hm
    have := List.any_eq_false.mp hfresh m hm
    simpa using this
  rw [hzero]
  simp

/-- Witness for C4 at a concrete duplicated message. -/
theorem duplicate_message_insert_idempotent_witness :
    (logMessageToDB ⟨some "g", "c", "u", false, "m1", "hi", 0, 50⟩
        (logMessageToDB ⟨some "g", "c", "u", false, "m1", "hi", 0, 50⟩ emptyDB)).messages =
      (logMessageToDB ⟨some "g", "c", "u", false, "m1", "hi", 0, 50⟩ emptyDB).messages ∧
    (logMessageToDB ⟨some "g", "c", "u", false, "m1", "hi", 0, 50⟩
        (logMessageToDB ⟨some "g", "c", "u", false, "m1", "hi", 0, 50⟩ emptyDB)).messages.countP
      (fun m => m.message_id == "m1") = 1 :=
  duplicate_message_insert_idempotent ⟨some "g", "c", "u", false, "m1", "hi", 0, 50⟩
    emptyDB "g" rfl rfl (by decide)

/-- C5: the presence upsert inserts `first_seen = last_seen = now` for a
new (guild, user), updates only `last_seen` on an existing row (all other
fields, `first_seen` included, unchanged), and across any further event
stream the pair's `first_seen` stays what it was (so it never decreases). -/
theorem presence_upsert_first_seen_stable (g u : String) (ts : Int) (db : DB) :
    (lookupUser g u db = none →
      lookupUser g u (insertOrUpdateUser g u ts db) = some ⟨g, u, ts, ts⟩) ∧
    (∀ r, lookupUser g u db = some r →
      lookupUser g u (insertOrUpdateUser g u ts db) = some { r with last_seen := ts }) ∧
    (∀ (es : List Event) (r : UserRow), lookupUser g u db = some r →
      ∃ r', lookupUser g u (applyEvents es db) = some r' ∧
        r'.first_seen = r.first_seen) :=
  ⟨upsert_lookup_of_none g u ts db,
   fun r => upsert_lookup_of_some g u ts db r,
   fun es r h => lookup_run_first g u es db r h⟩

/-- Witness for C5: fresh insert, conflict update, and stability of
`first_seen` across a later message event. -/
theorem presence_upsert_first_seen_stable_witness :
    lookupUser "g" "u" (insertOrUpdateUser "g" "u" 5 emptyDB) = some ⟨"g", "u", 5, 5⟩ ∧
    lookupUser "g" "u" (insertOrUpdateUser "g" "u" 9
      (insertOrUpdateUser "g" "u" 5 emptyDB)) = some ⟨"g", "u", 5, 9⟩ ∧
    (∃ r', lookupUser "g" "u" (applyEvents
        [.msg ⟨some "g", "c", "u", false, "m1", "hi", 0, 9⟩]
        (insertOrUpdateUser "g" "u" 5 emptyDB)) = some r' ∧
      r'.first_seen = 5) :=
  ⟨(presence_upsert_first_seen_stable "g" "u" 5 emptyDB).1 rfl,
   (presence_upsert_first_seen_stable "g" "u" 9
     (insertOrUpdateUser "g" "u" 5 emptyDB)).2.1 ⟨"g", "u", 5, 5⟩ (by decide),
   (presence_upsert_first_seen_stable "g" "u" 9
     (insertOrUpdateUser "g" "u" 5 emptyDB)).2.2
     [.msg ⟨some "g", "c", "u", false, "m1", "hi", 0, 9⟩] ⟨"g", "u", 5, 5⟩ (by decide)⟩

/-- C6: a leave transition for a pair with no open session leaves the
database exactly as it was — no row created or modified, and the (total)
handler returns normally. -/
theorem leave_without_open_session_noop (g u ch : String) (ts : Int) (db : DB)
    (h : openCountGU g u db = 0) :
    onVoiceUpdate ⟨g, u, false, some ch, none, ts⟩ db = db := by
  show (if (false = true) then db else
      match selectOpenVoiceSession g u db with
      | some r => updateVoiceSessionLeave ts (ts - r.joined_at) r.id db
      | none => db) = db
  rw [if_neg Bool.false_ne_true, selectOpen_none_of_zero g u db h]

/-- Witness for C6 on the empty database. -/
theorem leave_without_open_session_noop_witness :
    openCountGU "g" "u" emptyDB = 0 ∧
    onVoiceUpdate ⟨"g", "u", false, some "A", none, 300⟩ emptyDB = emptyDB :=
  ⟨by decide, leave_without_open_session_noop "g" "u" "A" 300 emptyDB (by decide)⟩

/-- C7: for a (guild, user) with no rows in any of the three tables the
stats query returns all four aggregates as 0 (the `COALESCE(...,0)` of an
empty `SUM`), with no error — the query is a total function. -/
theorem stats_zero_rows_all_zero (g u : String) (db : DB)
    (_hu : ∀ r ∈ db.guild_users, (r.guild_id == g && r.user_id == u) = false)
    (hm : ∀ m ∈ db.messages, msgFor g u m = false)
    (hv : ∀ r ∈ db.voice_sessions, voiceFor g u r = false) :
    buildStatsEmbed g u db = ⟨0, 0, 0, 0⟩ := by
  have h1 : db.messages.filter (msgFor g u) = [] :=
    List.filter_eq_nil_iff.mpr (fun a ha => by rw [hm a ha]; exact Bool.false_ne_true)
  have h2 : db.voice_sessions.filter (voiceFor g u) = [] :=
    List.filter_eq_nil_iff.mpr (fun a ha => by rw [hv a ha]; exact Bool.false_ne_true)
  unfold buildStatsEmbed
  rw [h1, h2]
  rfl

/-- Witness for C7 on the empty database. -/
theorem stats_zero_rows_all_zero_witness :
    buildStatsEmbed "g" "u" emptyDB = ⟨0, 0, 0, 0⟩ :=
  stats_zero_rows_all_zero "g" "u" emptyDB
    (fun r hr => absurd hr (List.not_mem_nil r))
    (fun m hm => absurd hm (List.not_mem_nil m))
    (fun r hr => absurd hr (List.not_mem_nil r))

/-- C8 (counterexample): the ingested link count is not the match count of
a configurable, platform-neutral URL pattern — the pattern is the fixed
module constant `X_LINK_REGEX`: a message whose text holds two URLs of
other platforms is stored with `x_link_count = 0`, while an `x.com` URL of
the same shape is counted. -/
theorem link_count_fixed_platform :
    (logMessageToDB ⟨some "g", "c", "u", false, "m1",
        "https://youtube.com/watch?v=abc https://example.com/page", 0, 50⟩
      emptyDB).messages.map (fun m => m.x_link_count) = [0] ∧
    (logMessageToDB ⟨some "g", "c", "u", false, "m2",
        "https://x.com/somepost", 0, 50⟩
      emptyDB).messages.map (fun m => m.x_link_count) = [1] := by
  constructor
  · decide
  · decide

/-- C8 (amended): for every non-bot guild message, the stored
`x_link_count` is the number of non-overlapping, case-insensitive,
leftmost matches of the fixed X/Twitter pattern `X_LINK_REGEX` (domains
`x.com`, `twitter.com`, `t.co`) in the message text; the pattern is a
module-level constant, not a parameter. -/
theorem link_count_matches_fixed_x_pattern (e : MessageEvent) (db : DB) (g : String)
    (hg : e.guild_id = some g) (hb : e.author_is_bot = false)
    (hfresh : (db.messages.any fun m => m.message_id == e.message_id) = false) :
    (logMessageToDB e db).messages = db.messages ++
      [⟨g, e.channel_id, e.author_id, e.message_id, e.ts,
        (if e.attachments_size > 0 then 1 else 0), e.attachments_size,
        xLinkCount e.content⟩] ∧
    xLinkCount "HTTPS://WWW.TWITTER.COM/User" = 1 ∧
    xLinkCount "x.com/ab x.com/cd" = 2 ∧
    xLinkCount "check t.co/ab now" = 1 := by
  refine ⟨?_, by decide, by decide, by decide⟩
  have hx : (if e.content == "" then 0 else xLinkCount e.content) = xLinkCount e.content := by
    by_cases hc : (e.content == "") = true
    · rw [if_pos hc, eq_of_beq hc]
      rfl
    · rw [if_neg hc]
  rw [logMessage_appends e db g hg hb hfresh, hx]

/-- Witness for the amended C8 at a concrete message. -/
theorem link_count_matches_fixed_x_pattern_witness :
    (logMessageToDB ⟨some "g", "c", "u", false, "m1", "see x.com/ab now", 0, 50⟩
      emptyDB).messages =
      [] ++ [⟨"g", "c", "u", "m1", 50, if (0 : Nat) > 0 then 1 else 0, 0,
        xLinkCount "see x.com/ab now"⟩] :=
  (link_count_matches_fixed_x_pattern
    ⟨some "g", "c", "u", false, "m1", "see x.com/ab now", 0, 50⟩
    emptyDB "g" rfl rfl (by decide)).1

/-- C9: re-delivering a message whose `message_id` is already recorded
leaves the `messages` table unchanged, yet the presence upsert has already
run, so the author's `last_seen` is advanced to the event's timestamp. -/
theorem redelivery_advances_last_seen (e : MessageEvent) (db : DB) (g : String)
    (hg : e.guild_id = some g) (hb : e.author_is_bot = false)
    (hdup : (db.messages.any fun m => m.message_id == e.message_id) = true) :
    (logMessageToDB e db).messages = db.messages ∧
    ∃ r', lookupUser g e.author_id (logMessageToDB e db) = some r' ∧
      r'.last_seen = e.ts := by
  refine ⟨logMessage_dup e db g hg hb hdup, ?_⟩
  unfold logMessageToDB
  rw [hg]
  simp only [hb, Bool.false_eq_true, if_false]
  have hins : lookupUser g e.author_id (insertMessage
      ⟨g, e.channel_id, e.author_id, e.message_id, e.ts,
       (if e.attachments_size > 0 then 1 else 0), e.attachments_size,
       (if e.content == "" then 0 else xLinkCount e.content)⟩
      (insertOrUpdateUser g e.author_id e.ts db)) =
      lookupUser g e.author_id (insertOrUpdateUser g e.author_id e.ts db) := by
    unfold lookupUser
    rw [insertMessage_users]
  rw [hins]
  exact upsert_lookup_last g e.author_id e.ts db

/-- Witness for C9: the duplicate of an already-stored message still
advances `last_seen`. -/
theorem redelivery_advances_last_seen_witness :
    (logMessageToDB ⟨some "g", "c", "u", false, "m1", "hi", 0, 90⟩
      (logMessageToDB ⟨some "g", "c", "u", false, "m1", "hi", 0, 50⟩ emptyDB)).messages =
      (logMessageToDB ⟨some "g", "c", "u", false, "m1", "hi", 0, 50⟩ emptyDB).messages ∧
    ∃ r', lookupUser "g" "u"
        (logMessageToDB ⟨some "g", "c", "u", false, "m1", "hi", 0, 90⟩
          (logMessageToDB ⟨some "g", "c", "u", false, "m1", "hi", 0, 50⟩ emptyDB)) = some r' ∧
      r'.last_seen = 90 :=
  redelivery_advances_last_seen ⟨some "g", "c", "u", false, "m1", "hi", 0, 90⟩
    (logMessageToDB ⟨some "g", "c", "u", false, "m1", "hi", 0, 50⟩ emptyDB) "g"
    rfl rfl (by decide)

/-- C10: a join transition inserts a fresh open row unconditionally — the
new table is always the old one plus one open row, with nothing closed —
so a pair that already has one open session ends up with two. -/
theorem join_inserts_unconditionally (e : VoiceEvent) (db : DB) (ch : String)
    (hb : e.is_bot = false) (ho : e.old_channel = none) (hn : e.new_channel = some ch) :
    (onVoiceUpdate e db).voice_sessions = db.voice_sessions ++
      [⟨db.next_voice_id, e.guild_id, e.user_id, ch, e.ts, none, none⟩] ∧
    (openCountGU e.guild_id e.user_id db = 1 →
      openCountGU e.guild_id e.user_id (onVoiceUpdate e db) = 2) := by
  have hrun : onVoiceUpdate e db = insertVoiceSession e.guild_id e.user_id ch e.ts db := by
    unfold onVoiceUpdate
    rw [if_neg (by rw [hb]; exact Bool.false_ne_true)]
    rw [ho, hn]
  constructor
  · rw [hrun]
    rfl
  · intro h1
    rw [hrun, openCount_insert, h1]
    simp

/-- Witness for C10: a second join on top of an open session yields two
open sessions. -/
theorem join_inserts_unconditionally_witness :
    openCountGU "g" "u"
      (onVoiceUpdate ⟨"g", "u", false, none, some "A", 1000⟩ emptyDB) = 1 ∧
    openCountGU "g" "u"
      (onVoiceUpdate ⟨"g", "u", false, none, some "A", 1001⟩
        (onVoiceUpdate ⟨"g", "u", false, none, some "A", 1000⟩ emptyDB)) = 2 :=
  ⟨by decide,
   (join_inserts_unconditionally ⟨"g", "u", false, none, some "A", 1001⟩
     (onVoiceUpdate ⟨"g", "u", false, none, some "A", 1000⟩ emptyDB) "A"
     rfl rfl rfl).2 (by decide)⟩

end DemoStats
